import Mathlib

/-!
Shallow embedding of `src/events/input_state.rs` from the conrod GUI toolkit:
the `InputState` / `ButtonMap` user-input state tracker.

Conventions of the embedding:
* The scalar coordinate type of the source is `f64`; the module only stores
  coordinates and subtracts them componentwise, so it is modelled exactly by `ℚ`.
* Rust methods taking `&mut self` are modelled as pure functions returning the
  new value (and, for `ButtonMap.take`, pairing it with the returned value).
* The external collaborator types (the piston `input` crate's `MouseButton`,
  `Key`, `ModifierKey`, `Button`, `Input`, `Motion` and conrod's `widget::Index`
  and `UiEvent`) are not part of this repository's sources; they are modelled
  from the specification's description of the external interfaces.
-/

namespace Conrod

/-- Scalar coordinate (the source's `f64`, modelled as `ℚ`; the module only
stores coordinates and subtracts them, which is exact). -/
abbrev Scalar := ℚ

/-- A 2D point, the source's `position::Point` (`[Scalar; 2]`). -/
abbrev Point := Scalar × Scalar

/-- The source's `vecmath::vec2_sub`: componentwise vector subtraction. -/
def vec2_sub (a b : Point) : Point := (a.1 - b.1, a.2 - b.2)

/-- The max total number of buttons on a mouse (source constant
`NUM_MOUSE_BUTTONS = 9`). -/
abbrev NUM_MOUSE_BUTTONS : Nat := 9

/-- Modelled from the spec: the external mouse-button enumeration
("a mouse-button enumeration convertible losslessly to a dense integer
identity in [0, 9)"), with `Right` below `X1` in index order as the spec's
examples require. -/
inductive MouseButton
  | Unknown
  | Left
  | Right
  | Middle
  | X1
  | X2
  | Button6
  | Button7
  | Button8
  deriving DecidableEq

/-- Describes the position of the mouse when the button was pressed. `none`
if the mouse button is currently in the up position. -/
abbrev ButtonDownPosition := Option Point

/-- Stores the state of all mouse buttons: a fixed-size array of
`NUM_MOUSE_BUTTONS` optional pressed-at positions, modelled as a function
from the index type. -/
structure ButtonMap where
  button_states : Fin NUM_MOUSE_BUTTONS → ButtonDownPosition

/-- The source's `ButtonMap::button_idx`, i.e. `u32::from(button) as usize`:
the dense identity index of a button (conversion modelled from the spec's
lossless dense mapping into [0, 9)). -/
def ButtonMap.button_idx : MouseButton → Fin NUM_MOUSE_BUTTONS
  | .Unknown => 0
  | .Left => 1
  | .Right => 2
  | .Middle => 3
  | .X1 => 4
  | .X2 => 5
  | .Button6 => 6
  | .Button7 => 7
  | .Button8 => 8

/-- The source's `ButtonMap::idx_to_button`, i.e. `MouseButton::from(idx as u32)`
(the external conversion's catch-all arm yields `Unknown`). -/
def ButtonMap.idx_to_button (i : Fin NUM_MOUSE_BUTTONS) : MouseButton :=
  match i.val with
  | 1 => .Left
  | 2 => .Right
  | 3 => .Middle
  | 4 => .X1
  | 5 => .X2
  | 6 => .Button6
  | 7 => .Button7
  | 8 => .Button8
  | _ => .Unknown

/-- `ButtonMap::new`: all slots `None`. -/
def ButtonMap.new : ButtonMap := ⟨fun _ => none⟩

/-- `ButtonMap::set`: overwrite the slot at the button's identity index. -/
def ButtonMap.set (m : ButtonMap) (button : MouseButton) (point : ButtonDownPosition) :
    ButtonMap :=
  ⟨Function.update m.button_states (ButtonMap.button_idx button) point⟩

/-- `ButtonMap::get`: read the slot at the button's identity index. -/
def ButtonMap.get (m : ButtonMap) (button : MouseButton) : ButtonDownPosition :=
  m.button_states (ButtonMap.button_idx button)

/-- `ButtonMap::take`: `Option::take` on the slot — return the current value
and leave `None` in its place. Modelled as (returned value, updated map). -/
def ButtonMap.take (m : ButtonMap) (button : MouseButton) :
    ButtonDownPosition × ButtonMap :=
  (m.button_states (ButtonMap.button_idx button),
   ⟨Function.update m.button_states (ButtonMap.button_idx button) none⟩)

/-- `ButtonMap::pressed_button`: iterate the slots in ascending index order,
keep the occupied ones, convert index to button, return the first
(`iter().enumerate().filter(is_some).map(...).next()`, fused into a single
first-hit search). -/
def ButtonMap.pressed_button (m : ButtonMap) : Option (MouseButton × Point) :=
  (List.finRange NUM_MOUSE_BUTTONS).findSome? fun i =>
    (m.button_states i).map fun p => (ButtonMap.idx_to_button i, p)

/-- Modelled from the spec: the external keyboard-key enumeration, "including
at least the eight modifier key variants (left/right Ctrl, Shift, Alt, Gui)";
`A` and `Space` stand for the non-modifier keys. -/
inductive Key
  | LCtrl
  | RCtrl
  | LShift
  | RShift
  | LAlt
  | RAlt
  | LGui
  | RGui
  | A
  | Space
  deriving DecidableEq

/-- Modelled from the spec: the external `ModifierKey` bitset of
{Ctrl, Shift, Alt, Gui}, one Boolean per bit. -/
structure ModifierKey where
  ctrl : Bool
  shift : Bool
  alt : Bool
  gui : Bool
  deriving DecidableEq

/-- The empty modifier bitset `NO_MODIFIER`. -/
def NO_MODIFIER : ModifierKey := ⟨false, false, false, false⟩

/-- The `CTRL` bit. -/
def CTRL : ModifierKey := ⟨true, false, false, false⟩

/-- The `SHIFT` bit. -/
def SHIFT : ModifierKey := ⟨false, true, false, false⟩

/-- The `ALT` bit. -/
def ALT : ModifierKey := ⟨false, false, true, false⟩

/-- The `GUI` bit. -/
def GUI : ModifierKey := ⟨false, false, false, true⟩

/-- Bitset insertion (`bitflags` `insert`, bitwise or). -/
def ModifierKey.insert (m other : ModifierKey) : ModifierKey :=
  ⟨m.ctrl || other.ctrl, m.shift || other.shift, m.alt || other.alt, m.gui || other.gui⟩

/-- Bitset removal (`bitflags` `remove`, bitwise and-not). -/
def ModifierKey.remove (m other : ModifierKey) : ModifierKey :=
  ⟨m.ctrl && !other.ctrl, m.shift && !other.shift, m.alt && !other.alt, m.gui && !other.gui⟩

/-- The source's `get_modifier`: fixed lookup from key identity to modifier
bit; left/right variants collapse, all other keys give `none`. -/
def get_modifier : Key → Option ModifierKey
  | .LCtrl | .RCtrl => some CTRL
  | .LShift | .RShift => some SHIFT
  | .LAlt | .RAlt => some ALT
  | .LGui | .RGui => some GUI
  | _ => none

/-- Modelled from the spec: the opaque widget reference (`widget::Index`),
"identity + lookup, never ownership". -/
abbrev Index := Nat

/-- Modelled from the spec: the external `input::Button` sum of a keyboard
key or a mouse button. -/
inductive Button
  | Keyboard (key : Key)
  | Mouse (button : MouseButton)
  deriving DecidableEq

/-- Modelled from the spec: the external `input::Motion`. The spec's external
interface lists a raw mouse-move event carrying the absolute new coordinates,
which the source binds as `Motion::MouseRelative(x, y)`. -/
inductive Motion
  | MouseRelative (x y : Scalar)
  deriving DecidableEq

/-- Modelled from the spec: the external raw `input::Input` events; `Text`
stands for the raw variants the update does not recognize. -/
inductive Input
  | Press (button : Button)
  | Release (button : Button)
  | Move (motion : Motion)
  | Text (s : String)
  deriving DecidableEq

/-- Modelled from the spec: the toolkit event enumeration `UiEvent` — raw
input plus the four widget-capture notifications; `Other` stands for the
variants unrelated to input (layout, text entry, ...). -/
inductive UiEvent
  | Raw (input : Input)
  | WidgetCapturesKeyboard (idx : Index)
  | WidgetUncapturesKeyboard (idx : Index)
  | WidgetCapturesMouse (idx : Index)
  | WidgetUncapturesMouse (idx : Index)
  | Other
  deriving DecidableEq

/-- Holds the current state of user input (source struct `InputState`). -/
structure InputState where
  mouse_buttons : ButtonMap
  mouse_position : Point
  widget_capturing_keyboard : Option Index
  widget_capturing_mouse : Option Index
  modifiers : ModifierKey

/-- `InputState::new`: a fresh input state. -/
def InputState.new : InputState where
  mouse_buttons := ButtonMap.new
  mouse_position := (0, 0)
  widget_capturing_keyboard := none
  widget_capturing_mouse := none
  modifiers := NO_MODIFIER

/-- `InputState::update`: the event-driven state transition, a pattern match
over the event with a default no-op arm (`&mut self` modelled as returning
the new state). -/
def InputState.update (s : InputState) (event : UiEvent) : InputState :=
  match event with
  | .Raw (.Press (.Mouse mouse_button)) =>
      { s with mouse_buttons := s.mouse_buttons.set mouse_button (some s.mouse_position) }
  | .Raw (.Release (.Mouse mouse_button)) =>
      { s with mouse_buttons := s.mouse_buttons.set mouse_button none }
  | .Raw (.Move (.MouseRelative x y)) =>
      { s with mouse_position := (x, y) }
  | .Raw (.Press (.Keyboard key)) =>
      match get_modifier key with
      | some modifier => { s with modifiers := s.modifiers.insert modifier }
      | none => s
  | .Raw (.Release (.Keyboard key)) =>
      match get_modifier key with
      | some modifier => { s with modifiers := s.modifiers.remove modifier }
      | none => s
  | .WidgetCapturesKeyboard idx => { s with widget_capturing_keyboard := some idx }
  | .WidgetUncapturesKeyboard _ => { s with widget_capturing_keyboard := none }
  | .WidgetCapturesMouse idx => { s with widget_capturing_mouse := some idx }
  | .WidgetUncapturesMouse _ => { s with widget_capturing_mouse := none }
  | _ => s

/-- `InputState::relative_to`: a copy of the state with the mouse position
translated by `vec2_sub`, every other field taken over unchanged. -/
def InputState.relative_to (s : InputState) (xy : Point) : InputState :=
  { s with mouse_position := vec2_sub s.mouse_position xy }

/-- Spec-side predicate: the event variants the spec's transition table
recognizes (mouse press/release, mouse move, keyboard press/release, the four
capture/uncapture notifications); everything else is to be ignored. -/
def UiEvent.isRecognized : UiEvent → Bool
  | .Raw (.Press (.Mouse _)) => true
  | .Raw (.Release (.Mouse _)) => true
  | .Raw (.Move (.MouseRelative _ _)) => true
  | .Raw (.Press (.Keyboard _)) => true
  | .Raw (.Release (.Keyboard _)) => true
  | .WidgetCapturesKeyboard _ => true
  | .WidgetUncapturesKeyboard _ => true
  | .WidgetCapturesMouse _ => true
  | .WidgetUncapturesMouse _ => true
  | _ => false

/-! ### Basic facts about the index conversions -/

/-- The index conversions are mutually inverse on the in-range indices. -/
theorem ButtonMap.button_idx_idx_to_button :
    ∀ i : Fin NUM_MOUSE_BUTTONS, ButtonMap.button_idx (ButtonMap.idx_to_button i) = i := by
  decide

/-- The index conversions are mutually inverse on the buttons. -/
theorem ButtonMap.idx_to_button_button_idx (b : MouseButton) :
    ButtonMap.idx_to_button (ButtonMap.button_idx b) = b := by
  cases b <;> rfl

/-! ### Claims -/

/-- C1: for every `InputState` and every raw mouse-move event carrying the
absolute new coordinates `(x, y)`, `update` sets `mouse_position` to exactly
`(x, y)`. -/
theorem update_mouse_move_sets_position (s : InputState) (x y : Scalar) :
    (s.update (.Raw (.Move (.MouseRelative x y)))).mouse_position = (x, y) := rfl

/-- C2: a mouse-button press stores `some` of the current mouse position for
that button; a subsequent mouse move leaves the stored position at its value
at press time; a release stores `none`. -/
theorem update_press_stores_position_at_press_time (s : InputState) (b : MouseButton)
    (x y : Scalar) :
    ((s.update (.Raw (.Press (.Mouse b)))).mouse_buttons.get b = some s.mouse_position) ∧
    (((s.update (.Raw (.Press (.Mouse b)))).update
        (.Raw (.Move (.MouseRelative x y)))).mouse_buttons.get b = some s.mouse_position) ∧
    ((s.update (.Raw (.Release (.Mouse b)))).mouse_buttons.get b = none) := by
  refine ⟨?_, ?_, ?_⟩ <;>
    simp [InputState.update, ButtonMap.set, ButtonMap.get]

/-- C5: `relative_to origin` translates the mouse position by componentwise
subtraction of `origin` and copies every other field (button map with all
stored button-down positions, both capture slots, modifiers) unchanged.
The receiver itself is untouched: the embedding of `relative_to` is a pure
function of the state. -/
theorem relative_to_translates_only_mouse_position (s : InputState) (origin : Point) :
    ((s.relative_to origin).mouse_position.1 = s.mouse_position.1 - origin.1 ∧
     (s.relative_to origin).mouse_position.2 = s.mouse_position.2 - origin.2) ∧
    (s.relative_to origin).mouse_buttons = s.mouse_buttons ∧
    (∀ b, (s.relative_to origin).mouse_buttons.get b = s.mouse_buttons.get b) ∧
    (s.relative_to origin).widget_capturing_keyboard = s.widget_capturing_keyboard ∧
    (s.relative_to origin).widget_capturing_mouse = s.widget_capturing_mouse ∧
    (s.relative_to origin).modifiers = s.modifiers :=
  ⟨⟨rfl, rfl⟩, rfl, fun _ => rfl, rfl, rfl, rfl⟩

/-- C6: `InputState::new` has the mouse at the origin, no modifier bit set,
both capture slots empty, and a button map on which every `get` and
`pressed_button` return `none`. -/
theorem new_state_is_fresh :
    InputState.new.mouse_position = (0, 0) ∧
    InputState.new.modifiers.ctrl = false ∧ InputState.new.modifiers.shift = false ∧
    InputState.new.modifiers.alt = false ∧ InputState.new.modifiers.gui = false ∧
    InputState.new.widget_capturing_keyboard = none ∧
    InputState.new.widget_capturing_mouse = none ∧
    (∀ b, InputState.new.mouse_buttons.get b = none) ∧
    InputState.new.mouse_buttons.pressed_button = none := by
  refine ⟨rfl, rfl, rfl, rfl, rfl, rfl, rfl, fun _ => rfl, ?_⟩
  decide

/-- C7: a capture notification overwrites the capture slot with the new
widget unconditionally, and an uncapture notification clears it
unconditionally, for the keyboard and the mouse slot alike (`s` and `w` are
arbitrary, so the prior holder and the requesting id are irrelevant). -/
theorem capture_events_overwrite_unconditionally (s : InputState) (w : Index) :
    ((s.update (.WidgetCapturesKeyboard w)).widget_capturing_keyboard = some w) ∧
    ((s.update (.WidgetUncapturesKeyboard w)).widget_capturing_keyboard = none) ∧
    ((s.update (.WidgetCapturesMouse w)).widget_capturing_mouse = some w) ∧
    ((s.update (.WidgetUncapturesMouse w)).widget_capturing_mouse = none) :=
  ⟨rfl, rfl, rfl, rfl⟩

/-- C3: `take` returns what `get` would have returned just before the call,
and afterwards `get` on that button returns `none`, for any prior state. -/
theorem take_returns_prior_and_clears (m : ButtonMap) (b : MouseButton) :
    (m.take b).1 = m.get b ∧ ((m.take b).2).get b = none := by
  refine ⟨rfl, ?_⟩
  simp [ButtonMap.take, ButtonMap.get]

/-- C8: pressing a key that maps to no modifier leaves the modifier set
unchanged; pressing left-Ctrl and then releasing right-Ctrl leaves the Ctrl
bit clear; the left/right variants of Ctrl, Shift, Alt and Gui resolve to
the same modifier bit. -/
theorem modifier_tracking_collapses_sides (s : InputState) (key : Key)
    (h : get_modifier key = none) :
    (s.update (.Raw (.Press (.Keyboard key)))).modifiers = s.modifiers ∧
    (((s.update (.Raw (.Press (.Keyboard .LCtrl)))).update
        (.Raw (.Release (.Keyboard .RCtrl)))).modifiers.ctrl = false) ∧
    get_modifier Key.LCtrl = get_modifier Key.RCtrl ∧
    get_modifier Key.LShift = get_modifier Key.RShift ∧
    get_modifier Key.LAlt = get_modifier Key.RAlt ∧
    get_modifier Key.LGui = get_modifier Key.RGui := by
  refine ⟨?_, ?_, rfl, rfl, rfl, rfl⟩
  · simp [InputState.update, h]
  · simp [InputState.update, get_modifier, ModifierKey.insert, ModifierKey.remove, CTRL]

/-- Witness for C8 at the concrete non-modifier key `A` and the fresh state. -/
theorem modifier_tracking_collapses_sides_witness :
    get_modifier Key.A = none ∧
    (InputState.new.update (.Raw (.Press (.Keyboard .A)))).modifiers
        = InputState.new.modifiers ∧
    ((InputState.new.update (.Raw (.Press (.Keyboard .LCtrl)))).update
        (.Raw (.Release (.Keyboard .RCtrl)))).modifiers.ctrl = false :=
  ⟨rfl, (modifier_tracking_collapses_sides InputState.new Key.A rfl).1,
   (modifier_tracking_collapses_sides InputState.new Key.A rfl).2.1⟩

/-- C9: `update` is a total function, and on every event outside the
recognized transition table it returns the state with every field
unchanged. -/
theorem update_ignores_unrecognized_events (s : InputState) (e : UiEvent)
    (h : e.isRecognized = false) : s.update e = s := by
  cases e with
  | Raw i =>
      cases i with
      | Press b =>
          cases b with
          | Keyboard k => simp [UiEvent.isRecognized] at h
          | Mouse mb => simp [UiEvent.isRecognized] at h
      | Release b =>
          cases b with
          | Keyboard k => simp [UiEvent.isRecognized] at h
          | Mouse mb => simp [UiEvent.isRecognized] at h
      | Move mo =>
          cases mo with
          | MouseRelative x y => simp [UiEvent.isRecognized] at h
      | Text t => rfl
  | WidgetCapturesKeyboard w => simp [UiEvent.isRecognized] at h
  | WidgetUncapturesKeyboard w => simp [UiEvent.isRecognized] at h
  | WidgetCapturesMouse w => simp [UiEvent.isRecognized] at h
  | WidgetUncapturesMouse w => simp [UiEvent.isRecognized] at h
  | Other => rfl

/-- Witness for C9 at the concrete unrecognized event `Other` and the fresh
state. -/
theorem update_ignores_unrecognized_events_witness :
    UiEvent.Other.isRecognized = false ∧
    InputState.new.update UiEvent.Other = InputState.new :=
  ⟨rfl, update_ignores_unrecognized_events InputState.new UiEvent.Other rfl⟩

/-- C10: `set` and `take` only touch the addressed slot: any button with a
different identity index reads the same value as before. -/
theorem set_and_take_are_slot_local (m : ButtonMap) (b b' : MouseButton)
    (v : ButtonDownPosition)
    (h : ButtonMap.button_idx b ≠ ButtonMap.button_idx b') :
    (m.set b v).get b' = m.get b' ∧ ((m.take b).2).get b' = m.get b' := by
  constructor <;>
    simp [ButtonMap.set, ButtonMap.get, ButtonMap.take,
      Function.update_noteq (Ne.symm h)]

/-- Witness for C10 at concrete distinct buttons on a nontrivial map. -/
theorem set_and_take_are_slot_local_witness :
    ButtonMap.button_idx .Left ≠ ButtonMap.button_idx .Right ∧
    (((ButtonMap.new.set .Right (some (1, 2))).set .Left (some (3, 4))).get .Right
        = (ButtonMap.new.set .Right (some (1, 2))).get .Right ∧
     (((ButtonMap.new.set .Right (some (1, 2))).take .Left).2).get .Right
        = (ButtonMap.new.set .Right (some (1, 2))).get .Right) :=
  ⟨by decide,
   set_and_take_are_slot_local (ButtonMap.new.set .Right (some (1, 2)))
     .Left .Right (some (3, 4)) (by decide)⟩

/-- An unsuccessful first-hit search means the search function fails on
every element of the list. -/
theorem findSome?_eq_none_forall {α β : Type} {f : α → Option β} :
    ∀ {l : List α}, l.findSome? f = none ↔ ∀ x ∈ l, f x = none := by
  intro l
  induction l with
  | nil => simp
  | cons a l ih =>
      cases hfa : f a with
      | some b => simp [List.findSome?_cons, hfa]
      | none => simp [List.findSome?_cons, hfa, ih]

/-- A successful first-hit search splits its list into a prefix on which the
search function fails, the hit, and a remainder. -/
theorem findSome?_eq_some_split {α β : Type} {f : α → Option β} :
    ∀ {l : List α} {r : β}, l.findSome? f = some r →
      ∃ pre a post, l = pre ++ a :: post ∧ (∀ x ∈ pre, f x = none) ∧ f a = some r := by
  intro l
  induction l with
  | nil => intro r h; simp at h
  | cons a l ih =>
      intro r h
      cases hfa : f a with
      | some b =>
          have hb : b = r := by simpa [List.findSome?_cons, hfa] using h
          exact ⟨[], a, l, rfl, by simp, by rw [hfa, hb]⟩
      | none =>
          have h' : l.findSome? f = some r := by
            simpa [List.findSome?_cons, hfa] using h
          obtain ⟨pre, x, post, hl, hpre, hx⟩ := ih h'
          refine ⟨a :: pre, x, post, by rw [hl, List.cons_append], ?_, hx⟩
          intro y hy
          rcases List.mem_cons.mp hy with rfl | hy
          · exact hfa
          · exact hpre y hy

/-- C4: `pressed_button` returns `none` iff no slot holds a position;
otherwise it returns a down button whose identity index is lowest among all
down buttons, paired with the position stored in its slot. -/
theorem pressed_button_returns_first_down (m : ButtonMap) :
    (m.pressed_button = none ↔ ∀ b, m.get b = none) ∧
    (∀ b p, m.pressed_button = some (b, p) →
      m.get b = some p ∧
      ∀ b', m.get b' ≠ none → ButtonMap.button_idx b ≤ ButtonMap.button_idx b') := by
  constructor
  · rw [ButtonMap.pressed_button, findSome?_eq_none_forall]
    constructor
    · intro h b
      have hb := h (ButtonMap.button_idx b) (List.mem_finRange _)
      simpa [ButtonMap.get] using hb
    · intro h i _
      have hst : m.button_states i = none := by
        have hb := h (ButtonMap.idx_to_button i)
        rwa [ButtonMap.get, ButtonMap.button_idx_idx_to_button] at hb
      simp [hst]
  · intro b p hsome
    rw [ButtonMap.pressed_button] at hsome
    obtain ⟨pre, a, post, hsplit, hpre, ha⟩ := findSome?_eq_some_split hsome
    rw [Option.map_eq_some'] at ha
    obtain ⟨q, hq, hgq⟩ := ha
    injection hgq with hb hp
    subst hb
    subst hp
    have hidx : ButtonMap.button_idx (ButtonMap.idx_to_button a) = a :=
      ButtonMap.button_idx_idx_to_button a
    constructor
    · rw [ButtonMap.get, hidx]
      exact hq
    · intro b' hb'
      rw [hidx]
      have hmem : ButtonMap.button_idx b' ∈ List.finRange NUM_MOUSE_BUTTONS :=
        List.mem_finRange _
      rw [hsplit] at hmem
      rcases List.mem_append.mp hmem with hpre' | hmem'
      · exfalso
        have hnone := hpre _ hpre'
        simp only [Option.map_eq_none'] at hnone
        exact hb' hnone
      · rcases List.mem_cons.mp hmem' with heq | hpost
        · rw [heq]
        · have hp9 := List.pairwise_lt_finRange NUM_MOUSE_BUTTONS
          rw [hsplit] at hp9
          have h2 := (List.pairwise_append.mp hp9).2.1
          exact le_of_lt ((List.pairwise_cons.mp h2).1 _ hpost)

/-- Witness for C4 on the concrete map with Right and X1 down: the first
pressed button is Right with its own stored position, and Right's index is
below X1's. -/
theorem pressed_button_returns_first_down_witness :
    (((ButtonMap.new.set .Right (some (3, 3))).set .X1 (some (5, 4))).pressed_button
        = some (.Right, (3, 3))) ∧
    (((ButtonMap.new.set .Right (some (3, 3))).set .X1 (some (5, 4))).get .X1 ≠ none) ∧
    (((ButtonMap.new.set .Right (some (3, 3))).set .X1 (some (5, 4))).get .Right
        = some (3, 3)) ∧
    ButtonMap.button_idx .Right ≤ ButtonMap.button_idx .X1 := by
  refine ⟨by decide, by decide, ?_, ?_⟩
  · exact ((pressed_button_returns_first_down
      ((ButtonMap.new.set .Right (some (3, 3))).set .X1 (some (5, 4)))).2
      .Right (3, 3) (by decide)).1
  · exact ((pressed_button_returns_first_down
      ((ButtonMap.new.set .Right (some (3, 3))).set .X1 (some (5, 4)))).2
      .Right (3, 3) (by decide)).2 .X1 (by decide)

end Conrod
